import Mathlib

/-!
Verification of the core annotation logic of the Keypoint-Labeling-Tools
repository (files keypoint_labeler.py, keypoint_labelerv2.py,
dual_keypoint_labeler.py), via a shallow embedding in Lean 4.

Modelling conventions, used throughout:

* Python numbers (floats and ints appearing in keypoint records) are modelled
  as exact rationals.  The embedded code performs only arithmetic,
  comparisons and truncation on them, and no claim below depends on float
  rounding.
* A keypoint-list entry is either Python None (absent) or a Python list of
  numbers; it is modelled as Option (List Rat).  Entries of length 0 or 1
  and of length greater than 3 occur in the data model and are kept.
* Python exceptions are modelled with an error type PyErr; a function that
  can raise returns Except PyErr.  Division is modelled by pyDiv, which
  raises zeroDivisionError on a zero denominator, and Python len(None)
  raises typeError.
* Python lists used as stacks (undo_stack, redo_stack) are modelled as Lean
  lists with the head being the most recent element (Python's list end):
  Python append is cons, Python pop() is taking the head, and Python pop(0)
  (eviction of the oldest entry) is List.dropLast.
* String path manipulation is re-implemented structurally on character
  lists so every definition evaluates inside the kernel.  Paths are
  modelled with '/' separators (the POSIX behavior of os.path; on Windows
  the same code runs over backslash-separated paths, which changes no
  claim below).
-/

namespace KeypointTools

/-- Python exceptions that the embedded code can raise. -/
inductive PyErr where
  | typeError
  | zeroDivisionError
  | valueError
  deriving DecidableEq, Repr

/-- One entry of a keypoint list: Python None or a list of numbers. -/
abbrev KEntry := Option (List ℚ)

/-- Python int() applied to a number: truncation toward zero. -/
def pyInt (q : ℚ) : ℤ :=
  if 0 ≤ q then ⌊q⌋ else ⌈q⌉

/-- Python division on numbers: raises ZeroDivisionError on denominator 0. -/
def pyDiv (a b : ℚ) : Except PyErr ℚ :=
  if b = 0 then .error .zeroDivisionError else .ok (a / b)

/-! ### PathMatcher (normalize_path, basename, match_annotation_path)

Source: keypoint_labeler.py lines 344-418 and the identical
keypoint_labelerv2.py lines 430-504.  String operations are implemented
structurally: os.path.basename of an already '/'-normalized path is the
text after the last '/', and str.split('/') is splitSlash below. -/

/-- Embeds normalize_path: replace every backslash with a forward slash. -/
def normalize_path (s : String) : String :=
  String.mk (s.data.map fun c => if c = '\\' then '/' else c)

/-- Helper for splitSlash: split a character list on '/'. -/
def splitSlashAux : List Char → List Char → List (List Char)
  | [], acc => [acc.reverse]
  | c :: rest, acc =>
      if c = '/' then acc.reverse :: splitSlashAux rest []
      else splitSlashAux rest (c :: acc)

/-- Embeds Python str.split('/'). -/
def splitSlash (s : String) : List String :=
  (splitSlashAux s.data []).map String.mk

/-- Embeds os.path.basename on a '/'-normalized path: the final component. -/
def basename (s : String) : String :=
  (splitSlash s).getLastD ""

/-- Embeds Python a.endswith(b). -/
def pyEndsWith (a b : String) : Bool :=
  decide (a.data.drop (a.data.length - b.data.length) = b.data)

/-- Embeds Python l[-k:] (for k bound to a positive value, as in the
segment-suffix loop): the trailing k elements, or the whole list when k
exceeds its length. -/
def lastN (k : Nat) (l : List String) : List String :=
  l.drop (l.length - k)

/-- Embeds the segment-suffix loop of match_annotation_path:
for i in range(len(img_parts)): if img_parts[i:] == ann_parts[-len(img_parts[i:]):]. -/
def segRule (ap bp : List String) : Bool :=
  (List.range ap.length).any fun i =>
    decide (ap.drop i = lastN (ap.length - i) bp)

/-- Embeds match_annotation_path (keypoint_labeler.py lines 385-418).
Python falsiness of a path argument is the empty string here (the None
case behaves identically: the function returns False immediately). -/
def match_annotation_path (image_rel_path ann_path : String) : Bool :=
  if image_rel_path = "" ∨ ann_path = "" then false
  else
    let a := normalize_path image_rel_path
    let b := normalize_path ann_path
    if a = b then true
    else if basename a = basename b then true
    else if pyEndsWith a b || pyEndsWith b a then true
    else segRule (splitSlash a) (splitSlash b)

/-! Symmetry of the matching cascade.  Each of the four rules is
individually symmetric, so the whole cascade is. -/

lemma length_drop_lastN (k : Nat) (l : List String) :
    (lastN k l).length = l.length - (l.length - k) := by
  simp [lastN]

lemma seg_core {ap bp : List String} {i : Nat} (hi : i < ap.length)
    (h : ap.drop i = lastN (ap.length - i) bp) :
    ∃ j, j < bp.length ∧ bp.drop j = lastN (bp.length - j) ap := by
  set k := ap.length - i with hk
  have hk1 : 1 ≤ k := by omega
  have hlen : (ap.drop i).length = k := by simp [hk]
  have hlen2 : (lastN k bp).length = bp.length - (bp.length - k) :=
    length_drop_lastN k bp
  have hkb : k ≤ bp.length := by
    have := congrArg List.length h
    rw [hlen, hlen2] at this
    omega
  refine ⟨bp.length - k, by omega, ?_⟩
  have h1 : bp.length - (bp.length - k) = k := by omega
  rw [h1]
  have h2 : lastN k ap = ap.drop i := by
    have : ap.length - k = i := by omega
    simp [lastN, this]
  rw [h2, h]
  rfl

lemma segRule_true_iff (ap bp : List String) :
    segRule ap bp = true ↔
      ∃ i, i < ap.length ∧ ap.drop i = lastN (ap.length - i) bp := by
  simp [segRule, List.any_eq_true, List.mem_range]

lemma segRule_symm (ap bp : List String) : segRule ap bp = segRule bp ap := by
  have h : ∀ x y : List String, segRule x y = true → segRule y x = true := by
    intro x y hxy
    rw [segRule_true_iff] at hxy ⊢
    obtain ⟨i, hi, heq⟩ := hxy
    exact seg_core hi heq
  cases hab : segRule ap bp <;> cases hba : segRule bp ap <;> try rfl
  · exact absurd (h bp ap hba) (by simp [hab])
  · exact absurd (h ap bp hab) (by simp [hba])

lemma match_cascade_eq (a b : String) :
    match_annotation_path a b =
      ((!(decide (a = "" ∨ b = ""))) &&
        (decide (normalize_path a = normalize_path b) ||
         decide (basename (normalize_path a) = basename (normalize_path b)) ||
         (pyEndsWith (normalize_path a) (normalize_path b) ||
          pyEndsWith (normalize_path b) (normalize_path a)) ||
         segRule (splitSlash (normalize_path a)) (splitSlash (normalize_path b)))) := by
  unfold match_annotation_path
  by_cases hg : a = "" ∨ b = ""
  · have hd : decide (a = "" ∨ b = "") = true := decide_eq_true hg
    simp [hg, hd]
  · have hd : decide (a = "" ∨ b = "") = false := decide_eq_false hg
    simp only [if_neg hg, hd, Bool.not_false, Bool.true_and]
    by_cases h1 : normalize_path a = normalize_path b
    · simp [h1]
    · simp only [if_neg h1, decide_eq_false h1, Bool.false_or]
      by_cases h2 : basename (normalize_path a) = basename (normalize_path b)
      · simp [h2]
      · simp only [if_neg h2, decide_eq_false h2, Bool.false_or]
        cases h3 : pyEndsWith (normalize_path a) (normalize_path b) ||
            pyEndsWith (normalize_path b) (normalize_path a) <;> simp [h3]

/-- Helper: the matching cascade is symmetric in its two arguments. -/
theorem match_symm (a b : String) :
    match_annotation_path a b = match_annotation_path b a := by
  rw [match_cascade_eq, match_cascade_eq]
  have hg : decide (a = "" ∨ b = "") = decide (b = "" ∨ a = "") := by
    apply decide_eq_decide.mpr; tauto
  have h1 : decide (normalize_path a = normalize_path b) =
      decide (normalize_path b = normalize_path a) := by
    apply decide_eq_decide.mpr; exact eq_comm
  have h2 : decide (basename (normalize_path a) = basename (normalize_path b)) =
      decide (basename (normalize_path b) = basename (normalize_path a)) := by
    apply decide_eq_decide.mpr; exact eq_comm
  rw [hg, h1, h2, segRule_symm,
    Bool.or_comm (pyEndsWith (normalize_path a) (normalize_path b))]

/-- C6: for every pair of path strings a and b, match_annotation_path is
symmetric (each of the four rules — exact equality, basename equality,
suffix, segment-suffix — is individually symmetric, so the whole cascade
is); in particular the two concrete example calls both return true. -/
theorem C6_match_annotation_path_symmetric :
    (∀ a b : String, match_annotation_path a b = match_annotation_path b a) ∧
    match_annotation_path "frames/x/f1.jpg" "DL/frames/x/f1.jpg" = true ∧
    match_annotation_path "DL/frames/x/f1.jpg" "frames/x/f1.jpg" = true :=
  ⟨match_symm, by decide, by decide⟩

/-! ### EditHistory and the edit operations

Source: save_state / undo_action / redo_action, identical in
keypoint_labeler.py lines 778-832 and keypoint_labelerv2.py lines 933-991,
and the mutating edit operations of both files.  The state is the active
record's keypoint list together with the two history stacks (all other
application state is untouched by these functions).  Stacks are Lean lists
with the head being Python's list end (most recent element). -/

/-- Capacity of the undo stack (self.max_history, 50 in all three files). -/
def maxHistory : Nat := 50

/-- Active-record projection of the application state: the current
keypoint list and the undo/redo stacks. -/
structure LState where
  keypoints : List KEntry
  undoStack : List (List KEntry)
  redoStack : List (List KEntry)
  deriving DecidableEq, Repr

/-- Embeds the push-with-eviction of save_state: append the snapshot, then
drop the oldest entry when the stack exceeds max_history. -/
def pushCap (kps : List KEntry) (us : List (List KEntry)) : List (List KEntry) :=
  let u := kps :: us
  if maxHistory < u.length then u.dropLast else u

/-- Embeds save_state: push a deep copy of the current keypoints onto the
undo stack (with eviction at capacity) and clear the redo stack. -/
def save_state (s : LState) : LState :=
  { s with undoStack := pushCap s.keypoints s.undoStack, redoStack := [] }

/-- Embeds undo_action: no-op on an empty undo stack, otherwise push the
current keypoints to redo and install the popped snapshot. -/
def undo_action (s : LState) : LState :=
  match s.undoStack with
  | [] => s
  | prev :: rest =>
      { keypoints := prev, undoStack := rest,
        redoStack := s.keypoints :: s.redoStack }

/-- Embeds redo_action: no-op on an empty redo stack, otherwise push the
current keypoints to undo (note: without the capacity check, exactly as in
the source) and install the popped snapshot. -/
def redo_action (s : LState) : LState :=
  match s.redoStack with
  | [] => s
  | next :: rest =>
      { keypoints := next, undoStack := s.keypoints :: s.undoStack,
        redoStack := rest }

/-- Format mode of keypoint_labelerv2.py (self.format_mode); the v1 file
behaves as the standard mode throughout. -/
inductive FormatMode where
  | standard
  | coco
  deriving DecidableEq, Repr

/-- One successful mutating edit operation on the active record.  The
parameters carry the already-translated image coordinates (add/move), the
index found by the nearest-keypoint scan (deleteAt/move), the visibility
value read from the UI at add time (v2; v1 never appends one), and for
copyPrevV2 the cleaned keypoint list computed by v2's
copy_from_previous_frame from the resolved previous record. -/
inductive EditOp where
  | add (x y vis : ℚ)
  | deleteAt (idx : Nat)
  | move (idx : Nat) (x y : ℚ)
  | clear
  | copyPrevV2 (cleaned : List KEntry)
  deriving Repr

/-- Embeds the effect of one mutating operation on the active record:
each calls save_state first, then mutates the keypoint list
(on_canvas_click add/delete branches, on_canvas_drag with the
once-per-gesture snapshot flag, clear_keypoints, and the successful path
of v2's copy_from_previous_frame). -/
def applyOp (mode : FormatMode) (op : EditOp) (s : LState) : LState :=
  match op with
  | .add x y vis =>
      let s1 := save_state s
      { s1 with keypoints := s1.keypoints ++
          [some (if mode = .coco then [x, y, vis] else [x, y])] }
  | .deleteAt idx =>
      let s1 := save_state s
      { s1 with keypoints := s1.keypoints.eraseIdx idx }
  | .move idx x y =>
      let s1 := save_state s
      if idx < s1.keypoints.length then
        { s1 with keypoints := s1.keypoints.set idx (some [x, y]) }
      else s1
  | .clear =>
      let s1 := save_state s
      { s1 with keypoints := [] }
  | .copyPrevV2 cleaned =>
      let s1 := save_state s
      { s1 with keypoints := cleaned }

/-- Apply a sequence of mutating operations in order. -/
def applyOps (mode : FormatMode) (ops : List EditOp) (s : LState) : LState :=
  ops.foldl (fun st op => applyOp mode op st) s

/-- Iterate undo_action. -/
def undoN : Nat → LState → LState
  | 0, s => s
  | n + 1, s => undoN n (undo_action s)

/-- Iterate redo_action. -/
def redoN : Nat → LState → LState
  | 0, s => s
  | n + 1, s => redoN n (redo_action s)

/-- Effect of v1's copy_from_previous_frame (keypoint_labeler.py lines
1113-1172) on the active-record projection, in the successful case: the
keypoint list is overwritten with a deep copy of the previous record's
list, and — unlike every other mutating operation — no save_state call is
made, so both stacks are left untouched. -/
def copy_prev_v1_effect (prevKps : List KEntry) (s : LState) : LState :=
  { s with keypoints := prevKps }

lemma applyOp_stacks (mode : FormatMode) (op : EditOp) (s : LState) :
    (applyOp mode op s).undoStack = pushCap s.keypoints s.undoStack ∧
      (applyOp mode op s).redoStack = [] := by
  cases op with
  | add x y vis => exact ⟨rfl, rfl⟩
  | deleteAt idx => exact ⟨rfl, rfl⟩
  | move idx x y =>
      constructor <;>
        · simp only [applyOp]
          split <;> rfl
  | clear => exact ⟨rfl, rfl⟩
  | copyPrevV2 c => exact ⟨rfl, rfl⟩

lemma pushCap_of_le (kps : List KEntry) (us : List (List KEntry))
    (h : us.length ≤ 49) : pushCap kps us = kps :: us := by
  unfold pushCap maxHistory
  rw [if_neg]
  simp only [List.length_cons]
  omega

lemma getLastD_append_singleton {α : Type} (l : List α) (a d : α) :
    (l ++ [a]).getLastD d = a := by
  induction l generalizing d with
  | nil => rfl
  | cons x xs ih => rw [List.cons_append, List.getLastD_cons]; exact ih x

lemma dropLast_cons_cons {α : Type} (a b : α) (l : List α) :
    (a :: b :: l).dropLast = a :: (b :: l).dropLast := rfl

lemma getD_getLast?_cons {α : Type} (q : α) (l : List α) (a b : α) :
    (q :: l).getLast?.getD a = (q :: l).getLast?.getD b := by
  induction l generalizing q with
  | nil => rfl
  | cons x xs ih =>
      rw [List.getLast?_cons_cons]
      exact ih x

lemma applyOps_stack (mode : FormatMode) (ops : List EditOp) (s : LState)
    (h : ops.length + s.undoStack.length ≤ 50) :
    ∃ snaps : List (List KEntry),
      (applyOps mode ops s).undoStack = snaps ++ s.undoStack ∧
      snaps.length = ops.length ∧
      snaps.getLastD (applyOps mode ops s).keypoints = s.keypoints ∧
      (ops = [] ∨ (applyOps mode ops s).redoStack = []) := by
  induction ops generalizing s with
  | nil =>
      exact ⟨[], by simp [applyOps], by simp, by simp [applyOps, List.getLastD],
        Or.inl rfl⟩
  | cons op ops ih =>
      have hstep : applyOps mode (op :: ops) s = applyOps mode ops (applyOp mode op s) := rfl
      have hpush : (applyOp mode op s).undoStack = s.keypoints :: s.undoStack := by
        rw [(applyOp_stacks mode op s).1, pushCap_of_le]
        simp only [List.length_cons] at h ⊢
        omega
      obtain ⟨snaps, h1, h2, h3, h4⟩ := ih (applyOp mode op s)
        (by rw [hpush]; simp only [List.length_cons] at h ⊢; omega)
      refine ⟨snaps ++ [s.keypoints], ?_, ?_, ?_, ?_⟩
      · rw [hstep, h1, hpush, List.append_assoc]
        rfl
      · simp [h2]
      · rw [hstep, getLastD_append_singleton]
      · right
        rcases h4 with h4 | h4
        · subst h4
          rw [hstep]
          exact (applyOp_stacks mode op s).2
        · rw [hstep]; exact h4

lemma undoN_go : ∀ (pre : List (List KEntry)) (p kps : List KEntry)
    (rest redo0 : List (List KEntry)),
    undoN (p :: pre).length ⟨kps, (p :: pre) ++ rest, redo0⟩ =
      ⟨(p :: pre).getLastD kps, rest, ((kps :: p :: pre).dropLast).reverse ++ redo0⟩ := by
  intro pre
  induction pre with
  | nil =>
      intro p kps rest redo0
      simp [undoN, undo_action, List.getLastD]
  | cons q pre' ih =>
      intro p kps rest redo0
      have hstep : undoN (p :: q :: pre').length ⟨kps, (p :: q :: pre') ++ rest, redo0⟩
          = undoN (q :: pre').length ⟨p, (q :: pre') ++ rest, kps :: redo0⟩ := rfl
      rw [hstep, ih q p rest (kps :: redo0)]
      simp [List.getLastD_cons, dropLast_cons_cons]
      exact getD_getLast?_cons q pre' p kps

lemma redoN_go : ∀ (pre : List (List KEntry)) (p kps : List KEntry)
    (rest undo0 : List (List KEntry)),
    redoN (p :: pre).length ⟨kps, undo0, (p :: pre) ++ rest⟩ =
      ⟨(p :: pre).getLastD kps, ((kps :: p :: pre).dropLast).reverse ++ undo0, rest⟩ := by
  intro pre
  induction pre with
  | nil =>
      intro p kps rest undo0
      simp [redoN, redo_action, List.getLastD]
  | cons q pre' ih =>
      intro p kps rest undo0
      have hstep : redoN (p :: q :: pre').length ⟨kps, undo0, (p :: q :: pre') ++ rest⟩
          = redoN (q :: pre').length ⟨p, kps :: undo0, (q :: pre') ++ rest⟩ := rfl
      rw [hstep, ih q p rest (kps :: undo0)]
      simp [List.getLastD_cons, dropLast_cons_cons]
      exact getD_getLast?_cons q pre' p kps

lemma redoN_keypoints (pre : List (List KEntry)) (kps x : List KEntry)
    (u0 : List (List KEntry)) :
    (redoN (pre ++ [kps]).length ⟨x, u0, pre ++ [kps]⟩).keypoints = kps := by
  induction pre generalizing x u0 with
  | nil => rfl
  | cons q qs ih =>
      have hstep : redoN ((q :: qs) ++ [kps]).length ⟨x, u0, (q :: qs) ++ [kps]⟩
          = redoN (qs ++ [kps]).length ⟨q, x :: u0, qs ++ [kps]⟩ := rfl
      rw [hstep]
      exact ih q (x :: u0)

/-- C2 (amended): starting from a fresh history, every mutating operation
among add, delete_at, move, clear and v2's copy_from_previous pushes
exactly one undo snapshot (of the pre-mutation list) before mutating and
clears redo, and for any sequence of at most 50 of these operations,
undoing once per operation restores the original keypoint list exactly and
redoing the same number of times restores the final list.  (v1's
copy_from_previous pushes no snapshot; see the counterexample.) -/
theorem C2_undo_redo_inverse_amended (mode : FormatMode) (ops : List EditOp)
    (k0 : List KEntry) (h : ops.length ≤ 50) :
    ((undoN ops.length (applyOps mode ops ⟨k0, [], []⟩)).keypoints = k0 ∧
      (redoN ops.length (undoN ops.length (applyOps mode ops ⟨k0, [], []⟩))).keypoints
        = (applyOps mode ops ⟨k0, [], []⟩).keypoints) ∧
    (∀ op s, (applyOp mode op s).undoStack = pushCap s.keypoints s.undoStack ∧
      (applyOp mode op s).redoStack = []) := by
  refine ⟨?_, fun op s => applyOp_stacks mode op s⟩
  obtain ⟨snaps, h1, h2, h3, h4⟩ :=
    applyOps_stack mode ops ⟨k0, [], []⟩ (by simpa using h)
  cases hops : ops with
  | nil =>
      exact ⟨rfl, rfl⟩
  | cons o os =>
      subst hops
      have hne : snaps ≠ [] := by
        intro hs
        rw [hs] at h2
        simp only [List.length_nil, List.length_cons] at h2
        omega
      obtain ⟨p, ps, hps⟩ := List.exists_cons_of_ne_nil hne
      subst hps
      set t := applyOps mode (o :: os) ⟨k0, [], []⟩ with ht
      have hredo : t.redoStack = [] := by
        rcases h4 with h4 | h4
        · exact absurd h4 (by simp)
        · exact h4
      have h1' : t.undoStack = (p :: ps) ++ [] := by simpa using h1
      have hts : t = ⟨t.keypoints, (p :: ps) ++ [], []⟩ := by
        conv_lhs => rw [show t = ⟨t.keypoints, t.undoStack, t.redoStack⟩ from rfl]
        rw [h1', hredo]
      have hu : undoN (o :: os).length t =
          ⟨(p :: ps).getLastD t.keypoints, [],
            ((t.keypoints :: p :: ps).dropLast).reverse ++ []⟩ := by
        rw [← h2]
        conv_lhs => rw [hts]
        exact undoN_go ps p t.keypoints [] []
      constructor
      · rw [hu]
        exact h3
      · rw [hu]
        have hdrop : (t.keypoints :: p :: ps).dropLast
            = t.keypoints :: (p :: ps).dropLast := rfl
        have hbody : ((t.keypoints :: p :: ps).dropLast).reverse ++ ([] : List (List KEntry))
            = (p :: ps).dropLast.reverse ++ [t.keypoints] := by
          rw [hdrop]
          simp
        have hlen : (o :: os).length = ((p :: ps).dropLast.reverse ++ [t.keypoints]).length := by
          rw [← h2]
          simp
        rw [hbody, hlen]
        exact redoN_keypoints ((p :: ps).dropLast.reverse) t.keypoints
          ((p :: ps).getLastD t.keypoints) []

/-- C2 witness: the amended theorem applied to a concrete two-operation
sequence in standard mode. -/
theorem C2_undo_redo_inverse_amended_witness :
    ((undoN 2 (applyOps .standard [.add 5 5 2, .clear] ⟨[], [], []⟩)).keypoints = [] ∧
      (redoN 2 (undoN 2 (applyOps .standard [.add 5 5 2, .clear] ⟨[], [], []⟩))).keypoints
        = (applyOps .standard [.add 5 5 2, .clear] ⟨[], [], []⟩).keypoints) ∧
    (∀ op s, (applyOp .standard op s).undoStack = pushCap s.keypoints s.undoStack ∧
      (applyOp .standard op s).redoStack = []) :=
  C2_undo_redo_inverse_amended .standard [.add 5 5 2, .clear] [] (by decide)

/-- C2 counterexample: v1's copy_from_previous_frame mutates the keypoint
list without pushing an undo snapshot, so one undo after the single
operation does not restore the original list (the claim's inverse property
fails already for the one-operation sequence [copy_from_previous] in v1). -/
theorem C2_counterexample_v1_copy_not_undoable :
    (copy_prev_v1_effect [some [9, 9]] ⟨[some [1, 2]], [], []⟩).undoStack = [] ∧
    (undo_action (copy_prev_v1_effect [some [9, 9]] ⟨[some [1, 2]], [], []⟩)).keypoints
        = [some [9, 9]] ∧
    (undo_action (copy_prev_v1_effect [some [9, 9]] ⟨[some [1, 2]], [], []⟩)).keypoints
        ≠ [some [1, 2]] := by
  refine ⟨rfl, rfl, ?_⟩
  decide

/-! ### The nearest-keypoint linear scan and the drag handler

Source: on_canvas_click, move and delete branches (keypoint_labeler.py
lines 876-921, keypoint_labelerv2.py lines 1086-1147) and on_canvas_drag
(keypoint_labeler.py lines 928-950, keypoint_labelerv2.py lines 1149-1170,
dual_keypoint_labeler.py lines 1384-1413).

The scan computes dist = math.sqrt(dx**2 + dy**2) and compares
dist < min_dist and dist < 30.  Square root composed with these strict
comparisons of non-negative values is embedded as the squared distance
compared against the squared running minimum and against 900: t ↦ sqrt t
is strictly monotone on the non-negative reals, so both comparisons have
the same truth value.  The running minimum starts at float('inf'),
modelled as the none case of an Option.  Crucially, the loop body
evaluates len(kp) on every entry, so a None entry raises TypeError. -/

/-- Embeds the body of the nearest-keypoint loop: the remaining entries,
the current index, the squared running minimum (none = float('inf')) and
the current nearest index. -/
def findNearestGo (imgX imgY : ℚ) :
    List KEntry → Nat → Option ℚ → Option Nat → Except PyErr (Option Nat)
  | [], _, _, nearest => .ok nearest
  | kp :: rest, idx, minD2, nearest =>
      match kp with
      | none => .error .typeError
      | some l =>
          if 2 ≤ l.length then
            let d2 := (imgX - l.getD 0 0) ^ 2 + (imgY - l.getD 1 0) ^ 2
            if (match minD2 with
                | none => true
                | some m => decide (d2 < m)) && decide (d2 < 900) then
              findNearestGo imgX imgY rest (idx + 1) (some d2) (some idx)
            else
              findNearestGo imgX imgY rest (idx + 1) minD2 nearest
          else
            findNearestGo imgX imgY rest (idx + 1) minD2 nearest

/-- Embeds the nearest-keypoint scan of the move and delete branches of
on_canvas_click (threshold 30 pixels, i.e. squared threshold 900). -/
def find_nearest_scan (kps : List KEntry) (imgX imgY : ℚ) :
    Except PyErr (Option Nat) :=
  findNearestGo imgX imgY kps 0 none none

/-- Embeds the delete branch of on_canvas_click: scan for the nearest
keypoint; when one is found, save_state then pop it from the list. -/
def on_canvas_click_delete (s : LState) (x y : ℚ) : Except PyErr LState :=
  match find_nearest_scan s.keypoints x y with
  | .error e => .error e
  | .ok none => .ok s
  | .ok (some idx) =>
      let s1 := save_state s
      .ok { s1 with keypoints := s1.keypoints.eraseIdx idx }

lemma findNearestGo_error_of_mem (imgX imgY : ℚ) :
    ∀ (kps : List KEntry) (idx : Nat) (minD2 : Option ℚ) (nearest : Option Nat),
    none ∈ kps →
    findNearestGo imgX imgY kps idx minD2 nearest = .error .typeError := by
  intro kps
  induction kps with
  | nil =>
      intro idx minD2 nearest h
      simp at h
  | cons kp rest ih =>
      intro idx minD2 nearest h
      cases kp with
      | none => rfl
      | some l =>
          have hrest : none ∈ rest := by
            rcases List.mem_cons.mp h with h | h
            · exact absurd h (by simp)
            · exact h
          simp only [findNearestGo]
          split
          · split
            · exact ih _ _ _ hrest
            · exact ih _ _ _ hrest
          · exact ih _ _ _ hrest

/-- C9: for every keypoint list containing a None (absent) entry, the
nearest-keypoint linear scan used by the move-mode and delete-mode click
handlers raises TypeError (at the len(None) evaluation), so both
operations fail on any record containing an absent keypoint. -/
theorem C9_scan_raises_typeerror_on_absent (kps : List KEntry) (x y : ℚ)
    (h : none ∈ kps) :
    find_nearest_scan kps x y = .error .typeError ∧
    (∀ s : LState, s.keypoints = kps →
      on_canvas_click_delete s x y = .error .typeError) := by
  have hscan : find_nearest_scan kps x y = .error .typeError :=
    findNearestGo_error_of_mem x y kps 0 none none h
  refine ⟨hscan, fun s hs => ?_⟩
  unfold on_canvas_click_delete
  rw [hs, hscan]

/-- C9 witness: the theorem at the concrete record [[1,1,2], None]. -/
theorem C9_scan_raises_typeerror_on_absent_witness :
    find_nearest_scan [some [1, 1, 2], none] 0 0 = .error .typeError ∧
    (∀ s : LState, s.keypoints = [some [1, 1, 2], none] →
      on_canvas_click_delete s 0 0 = .error .typeError) :=
  C9_scan_raises_typeerror_on_absent [some [1, 1, 2], none] 0 0 (by simp)

/-- Embeds on_canvas_drag of keypoint_labeler.py / keypoint_labelerv2.py:
when a keypoint is selected and the mode is move, snapshot once per
gesture (dragSaved tracks the _drag_state_saved flag), then overwrite the
entry at the selected index with the bare two-element list [x, y].  The
scale_factor guard and canvas-to-image coordinate translation belong to
the excluded UI layer; x and y here are already image coordinates. -/
def on_canvas_drag (moveMode : Bool) (selected : Option Nat)
    (dragSaved : Bool) (x y : ℚ) (s : LState) : LState :=
  match selected, moveMode with
  | some idx, true =>
      let s1 := if dragSaved then s else save_state s
      if idx < s1.keypoints.length then
        { s1 with keypoints := s1.keypoints.set idx (some [x, y]) }
      else s1
  | _, _ => s

/-- Embeds on_canvas_drag of dual_keypoint_labeler.py (lines 1384-1413),
which — unlike the other two variants — re-attaches int(old_kp[2]) in COCO
mode when the old entry has a visibility value. -/
def dual_on_canvas_drag (mode : FormatMode) (moveMode : Bool)
    (selected : Option Nat) (dragSaved : Bool) (x y : ℚ) (s : LState) : LState :=
  match selected, moveMode with
  | some idx, true =>
      let s1 := if dragSaved then s else save_state s
      if idx < s1.keypoints.length then
        let newKp : KEntry :=
          match mode, s1.keypoints.getD idx none with
          | .coco, some l =>
              if 3 ≤ l.length then some [x, y, ((pyInt (l.getD 2 0) : ℤ) : ℚ)]
              else some [x, y]
          | _, _ => some [x, y]
        { s1 with keypoints := s1.keypoints.set idx newKp }
      else s1
  | _, _ => s

/-- C4: moving the keypoint at index 0 of [[10,20,1]] to (30,40) in the
v1/v2 drag handler replaces the whole entry with the bare [30,40],
discarding the visibility value 1 — contradicting the spec, which says the
visibility is preserved.  The dual-view variant implements the claimed
behavior, witnessing the intent. -/
theorem C4_move_discards_visibility :
    (on_canvas_drag true (some 0) false 30 40
        ⟨[some [10, 20, 1]], [], []⟩).keypoints = [some [30, 40]] ∧
    (on_canvas_drag true (some 0) false 30 40
        ⟨[some [10, 20, 1]], [], []⟩).keypoints ≠ [some [30, 40, 1]] ∧
    (dual_on_canvas_drag .coco true (some 0) false 30 40
        ⟨[some [10, 20, 1]], [], []⟩).keypoints = [some [30, 40, 1]] := by
  refine ⟨rfl, by decide, ?_⟩
  decide

/-! ### Application state, the annotation lookup dictionary, and
copy_from_previous_frame

Source: keypoint_labeler.py lines 1113-1172 (v1) and keypoint_labelerv2.py
lines 1547-1663 (v2).  Records live in a pool (the document's annotations
list); the lookup dictionary maps path keys to pool indices, which models
Python's aliasing of record objects between the list and the dict.  The
values produced by the excluded os.path layer — get_relative_path and
get_annotation_match_path of the previous image — are passed in as
parameters relPath and ampPath (None is Option.none). -/

/-- One annotation record: image path (Python None stored in the image
field is represented as ""), cached dimensions, keypoint list. -/
structure Record where
  image : String
  width : ℚ
  height : ℚ
  keypoints : List KEntry
  deriving DecidableEq, Repr

/-- Default used for list access that the program guarantees in bounds. -/
def emptyRecord : Record := ⟨"", 0, 0, []⟩

/-- Python dict lookup (self.annotation_dict maps keys to record objects;
here to pool indices).  Keys are unique, so first match suffices. -/
def dictLookup (d : List (String × Nat)) (k : String) : Option Nat :=
  (d.find? fun kv => decide (kv.1 = k)).map (·.2)

/-- Python dict assignment d[k] = v: overwrite in place if the key exists,
else append (insertion order preserved, as dict iteration uses it). -/
def dictInsert (d : List (String × Nat)) (k : String) (v : Nat) :
    List (String × Nat) :=
  if (d.find? fun kv => decide (kv.1 = k)).isSome then
    d.map fun kv => if kv.1 = k then (k, v) else kv
  else d ++ [(k, v)]

/-- Python truthiness of an optional string: None and "" are falsy. -/
def truthyStr : Option String → Option String
  | some "" => none
  | o => o

/-- First dictionary entry whose key passes the match_annotation_path
cascade against p (the for-loop over annotation_dict.items()). -/
def matchFirst (dict : List (String × Nat)) (p : String) : Option Nat :=
  (dict.find? fun kv => match_annotation_path p kv.1).map (·.2)

/-- Embeds the 5-strategy previous-record resolution of v2's
copy_from_previous_frame (lines 1573-1599): exact match on the
annotation-match path, exact match on the relative path, filename lookup,
match cascade on the annotation-match path, match cascade on the relative
path. -/
def resolvePrevV2 (dict : List (String × Nat)) (ampPath relPath : Option String)
    (prevImagePath : String) : Option Nat :=
  let s1 := (truthyStr ampPath).bind fun p => dictLookup dict p
  let s2 := (truthyStr relPath).bind fun p => dictLookup dict p
  let s3 := dictLookup dict (basename ((truthyStr relPath).getD prevImagePath))
  let s4 := (truthyStr ampPath).bind fun p => matchFirst dict p
  let s5 := (truthyStr relPath).bind fun p => matchFirst dict p
  s1 <|> s2 <|> s3 <|> s4 <|> s5

/-- Embeds the 3-strategy resolution of v1's copy_from_previous_frame
(lines 1132-1149): exact relative-path lookup, filename lookup, match
cascade on the relative path. -/
def resolvePrevV1 (dict : List (String × Nat)) (relPath : Option String)
    (prevImagePath : String) : Option Nat :=
  let s1 := (truthyStr relPath).bind fun p => dictLookup dict p
  let s2 := dictLookup dict (basename ((truthyStr relPath).getD prevImagePath))
  let s3 := (truthyStr relPath).bind fun p => matchFirst dict p
  s1 <|> s2 <|> s3

/-- Application state shared by the single-view variants (fields that the
embedded operations touch or read). -/
structure App where
  annots : List Record
  annDict : List (String × Nat)
  curAnn : Option Nat
  currentImageIndex : Nat
  imageList : List String
  undoStack : List (List KEntry)
  redoStack : List (List KEntry)
  annotationsLoaded : Bool
  formatMode : FormatMode
  defaultVisibility : ℚ
  deriving DecidableEq, Repr

/-- Result reported by copy_from_previous_frame. -/
inductive CopyStatus where
  | warnNoCurrent
  | warnFirstImage
  | warnNoData
  | warnNoPrev
  | infoNoKeypoints
  | success
  deriving DecidableEq, Repr

/-- Embeds the per-entry validation loop of v2's copy_from_previous_frame
(lines 1619-1645).  For entries of the numeric data model the float()
coercion is the identity and never raises, and the isinstance check is
true for every list entry; int(kp[2]) truncates toward zero.  Note the
loop has no negativity check: negative coordinates are kept. -/
def clean_entry (mode : FormatMode) (dv : ℚ) : KEntry → KEntry
  | none => none
  | some l =>
      if 2 ≤ l.length then
        let x := l.getD 0 0
        let y := l.getD 1 0
        if 3 ≤ l.length then some [x, y, ((pyInt (l.getD 2 0) : ℤ) : ℚ)]
        else if mode = .coco then some [x, y, dv]
        else some [x, y]
      else none

/-- Embeds v2's copy_from_previous_frame (keypoint_labelerv2.py lines
1547-1663).  Note that save_state runs right after the three entry guards,
before the previous record is resolved, exactly as in the source. -/
def copy_from_previous_frame_v2 (relPath ampPath : Option String)
    (app : App) : App × CopyStatus :=
  match app.curAnn with
  | none => (app, .warnNoCurrent)
  | some ci =>
      if app.currentImageIndex = 0 then (app, .warnFirstImage)
      else if app.annotationsLoaded = false then (app, .warnNoData)
      else
        let curKps := (app.annots.getD ci emptyRecord).keypoints
        let app1 := { app with undoStack := pushCap curKps app.undoStack,
                               redoStack := [] }
        let prevImagePath := app.imageList.getD (app.currentImageIndex - 1) ""
        match resolvePrevV2 app.annDict ampPath relPath prevImagePath with
        | none => (app1, .warnNoPrev)
        | some pj =>
            let prevKps := (app.annots.getD pj emptyRecord).keypoints
            if prevKps = [] then (app1, .infoNoKeypoints)
            else
              let cleaned := prevKps.map
                (clean_entry app.formatMode app.defaultVisibility)
              let newRec := { app1.annots.getD ci emptyRecord with keypoints := cleaned }
              ({ app1 with annots := app1.annots.set ci newRec }, .success)

/-- Embeds v1's copy_from_previous_frame (keypoint_labeler.py lines
1113-1172): same guard structure, 3-strategy resolution, no save_state
call anywhere, and the previous keypoints are deep-copied verbatim with no
per-entry validation. -/
def copy_from_previous_frame_v1 (relPath : Option String)
    (app : App) : App × CopyStatus :=
  match app.curAnn with
  | none => (app, .warnNoCurrent)
  | some ci =>
      if app.currentImageIndex = 0 then (app, .warnFirstImage)
      else if app.annotationsLoaded = false then (app, .warnNoData)
      else
        let prevImagePath := app.imageList.getD (app.currentImageIndex - 1) ""
        match resolvePrevV1 app.annDict relPath prevImagePath with
        | none => (app, .warnNoPrev)
        | some pj =>
            let prevKps := (app.annots.getD pj emptyRecord).keypoints
            if prevKps = [] then (app, .infoNoKeypoints)
            else
              let newRec := { app.annots.getD ci emptyRecord with keypoints := prevKps }
              ({ app with annots := app.annots.set ci newRec }, .success)

lemma getD_set_self {α : Type} (l : List α) (i : Nat) (a d : α)
    (h : i < l.length) : (l.set i a).getD i d = a := by
  induction l generalizing i with
  | nil => simp at h
  | cons x xs ih =>
      cases i with
      | zero => rfl
      | succ n => exact ih n (by simpa using h)

/-- Concrete application state for the copy-failure scenario: the previous
image resolves to no record (empty dictionary), the redo stack is
non-empty. -/
def c3App : App :=
  { annots := [⟨"f1.jpg", 100, 100, [some [1, 2]]⟩],
    annDict := [],
    curAnn := some 0,
    currentImageIndex := 1,
    imageList := ["f0.jpg", "f1.jpg"],
    undoStack := [],
    redoStack := [[some [7, 7]]],
    annotationsLoaded := true,
    formatMode := .standard,
    defaultVisibility := 2 }

/-- C3 counterexample: in v2, a copy_from_previous_frame call that fails
because no record resolves for the previous image still pushes one undo
snapshot and clears the redo stack (save_state runs before resolution), so
the undo and redo stacks are not left as they were. -/
theorem C3_counterexample_v2_failed_copy_mutates_history :
    (copy_from_previous_frame_v2 (some "f0.jpg") (some "f0.jpg") c3App).2
        = .warnNoPrev ∧
    (copy_from_previous_frame_v2 (some "f0.jpg") (some "f0.jpg") c3App).1.annots
        = c3App.annots ∧
    (copy_from_previous_frame_v2 (some "f0.jpg") (some "f0.jpg") c3App).1.undoStack
        ≠ c3App.undoStack ∧
    (copy_from_previous_frame_v2 (some "f0.jpg") (some "f0.jpg") c3App).1.redoStack
        ≠ c3App.redoStack := by
  decide

/-- C3 (amended): when copy_from_previous cannot resolve a previous record
or the resolved record has no keypoints, the keypoint lists are left
unchanged in both variants; in v1 the whole state (undo and redo stacks
included) is exactly as before, while in v2 the failure still leaves one
pre-pushed undo snapshot and an emptied redo stack. -/
theorem C3_failed_copy_amended :
    (∀ (relPath ampPath : Option String) (app : App) (ci : Nat),
      app.curAnn = some ci →
      app.currentImageIndex ≠ 0 →
      app.annotationsLoaded = true →
      ((copy_from_previous_frame_v2 relPath ampPath app).2 = .warnNoPrev ∨
        (copy_from_previous_frame_v2 relPath ampPath app).2 = .infoNoKeypoints) →
      ((copy_from_previous_frame_v2 relPath ampPath app).1.annots = app.annots ∧
        (copy_from_previous_frame_v2 relPath ampPath app).1.undoStack =
          pushCap ((app.annots.getD ci emptyRecord).keypoints) app.undoStack ∧
        (copy_from_previous_frame_v2 relPath ampPath app).1.redoStack = [])) ∧
    (∀ (relPath : Option String) (app : App),
      (copy_from_previous_frame_v1 relPath app).2 ≠ .success →
      (copy_from_previous_frame_v1 relPath app).1 = app) := by
  constructor
  · intro relPath ampPath app ci hci h0 hL
    unfold copy_from_previous_frame_v2
    rw [hci]
    simp only [if_neg h0, hL]
    rw [if_neg (by decide : ¬(true = false))]
    cases hres : resolvePrevV2 app.annDict ampPath relPath
        (app.imageList.getD (app.currentImageIndex - 1) "") with
    | none =>
        intro _
        exact ⟨rfl, rfl, rfl⟩
    | some pj =>
        dsimp only
        by_cases hkp : (app.annots.getD pj emptyRecord).keypoints = []
        · rw [if_pos hkp]
          intro _
          exact ⟨rfl, rfl, rfl⟩
        · rw [if_neg hkp]
          intro hdisj
          rcases hdisj with h | h <;> exact absurd h (by simp)
  · intro relPath app hfail
    have hcase : (copy_from_previous_frame_v1 relPath app).2 = .success ∨
        (copy_from_previous_frame_v1 relPath app).1 = app := by
      unfold copy_from_previous_frame_v1
      cases app.curAnn with
      | none => exact Or.inr rfl
      | some ci =>
          dsimp only
          by_cases h0 : app.currentImageIndex = 0
          · rw [if_pos h0]
            exact Or.inr rfl
          · rw [if_neg h0]
            by_cases hL : app.annotationsLoaded = false
            · rw [if_pos hL]
              exact Or.inr rfl
            · rw [if_neg hL]
              cases resolvePrevV1 app.annDict relPath
                  (app.imageList.getD (app.currentImageIndex - 1) "") with
              | none => exact Or.inr rfl
              | some pj =>
                  dsimp only
                  by_cases hkp : (app.annots.getD pj emptyRecord).keypoints = []
                  · rw [if_pos hkp]
                    exact Or.inr rfl
                  · rw [if_neg hkp]
                    exact Or.inl rfl
    exact hcase.resolve_left hfail

/-- C3 witness: the amended theorem at the concrete failing state c3App
(v2 part) and at the same state for v1. -/
theorem C3_failed_copy_amended_witness :
    ((copy_from_previous_frame_v2 (some "f0.jpg") (some "f0.jpg") c3App).1.annots
        = c3App.annots ∧
      (copy_from_previous_frame_v2 (some "f0.jpg") (some "f0.jpg") c3App).1.undoStack =
        pushCap ((c3App.annots.getD 0 emptyRecord).keypoints) c3App.undoStack ∧
      (copy_from_previous_frame_v2 (some "f0.jpg") (some "f0.jpg") c3App).1.redoStack
        = []) ∧
    (copy_from_previous_frame_v1 (some "f0.jpg") c3App).1 = c3App :=
  ⟨C3_failed_copy_amended.1 (some "f0.jpg") (some "f0.jpg") c3App 0 rfl
      (by decide) rfl (by decide),
    C3_failed_copy_amended.2 (some "f0.jpg") c3App (by decide)⟩

/-- Concrete application state for the validation scenario: the previous
image resolves to a record whose single keypoint has a negative x. -/
def c5App : App :=
  { annots := [⟨"f1.jpg", 100, 100, []⟩, ⟨"f0.jpg", 100, 100, [some [-1, 2]]⟩],
    annDict := [("f0.jpg", 1)],
    curAnn := some 0,
    currentImageIndex := 1,
    imageList := ["f0.jpg", "f1.jpg"],
    undoStack := [],
    redoStack := [],
    annotationsLoaded := true,
    formatMode := .standard,
    defaultVisibility := 2 }

/-- C5 counterexample: copying a keypoint with a negative coordinate does
not make it absent — v2's validation has no negativity check, so [-1, 2]
is copied as [-1, 2], not as null. -/
theorem C5_counterexample_negative_not_absent :
    (copy_from_previous_frame_v2 (some "f0.jpg") (some "f0.jpg") c5App).2
        = .success ∧
    ((copy_from_previous_frame_v2 (some "f0.jpg") (some "f0.jpg") c5App).1.annots.getD
        0 emptyRecord).keypoints = [some [-1, 2]] ∧
    ((copy_from_previous_frame_v2 (some "f0.jpg") (some "f0.jpg") c5App).1.annots.getD
        0 emptyRecord).keypoints ≠ [none] := by
  decide

/-- C5 (amended): v2's copy validation maps each entry independently:
None stays None, entries shorter than two elements become None, an entry
with a visibility value keeps int() of it, an (x, y) pair gains
default_visibility in COCO mode and stays bare otherwise — but negative
coordinates are NOT made absent, and v1 performs no validation at all: the
previous list is installed verbatim. -/
theorem C5_copy_validation_amended :
    (∀ mode dv, clean_entry mode dv none = none) ∧
    (∀ mode dv (l : List ℚ), l.length < 2 → clean_entry mode dv (some l) = none) ∧
    (∀ mode dv (x y v : ℚ) (rest : List ℚ),
      clean_entry mode dv (some (x :: y :: v :: rest)) =
        some [x, y, ((pyInt v : ℤ) : ℚ)]) ∧
    (∀ dv (x y : ℚ), clean_entry .coco dv (some [x, y]) = some [x, y, dv]) ∧
    (∀ dv (x y : ℚ), clean_entry .standard dv (some [x, y]) = some [x, y]) ∧
    (∀ (relPath ampPath : Option String) (app : App) (ci pj : Nat),
      app.curAnn = some ci → ci < app.annots.length →
      app.currentImageIndex ≠ 0 → app.annotationsLoaded = true →
      resolvePrevV2 app.annDict ampPath relPath
          (app.imageList.getD (app.currentImageIndex - 1) "") = some pj →
      (app.annots.getD pj emptyRecord).keypoints ≠ [] →
      ((copy_from_previous_frame_v2 relPath ampPath app).1.annots.getD ci
          emptyRecord).keypoints
        = ((app.annots.getD pj emptyRecord).keypoints).map
            (clean_entry app.formatMode app.defaultVisibility)) ∧
    (∀ (relPath : Option String) (app : App) (ci pj : Nat),
      app.curAnn = some ci → ci < app.annots.length →
      app.currentImageIndex ≠ 0 → app.annotationsLoaded = true →
      resolvePrevV1 app.annDict relPath
          (app.imageList.getD (app.currentImageIndex - 1) "") = some pj →
      (app.annots.getD pj emptyRecord).keypoints ≠ [] →
      ((copy_from_previous_frame_v1 relPath app).1.annots.getD ci
          emptyRecord).keypoints
        = (app.annots.getD pj emptyRecord).keypoints) := by
  refine ⟨fun mode dv => rfl, ?_, ?_, fun dv x y => rfl, fun dv x y => rfl, ?_, ?_⟩
  · intro mode dv l hl
    unfold clean_entry
    dsimp only
    rw [if_neg (by omega)]
  · intro mode dv x y v rest
    unfold clean_entry
    dsimp only
    rw [if_pos (by simp only [List.length_cons]; omega),
      if_pos (by simp only [List.length_cons]; omega)]
    simp only [List.getD_cons_zero, List.getD_cons_succ]
  · intro relPath ampPath app ci pj hci hcl h0 hL hres hkp
    unfold copy_from_previous_frame_v2
    rw [hci]
    simp only [if_neg h0, hL]
    rw [if_neg (by decide : ¬(true = false)), hres]
    dsimp only
    rw [if_neg hkp]
    dsimp only
    rw [getD_set_self _ _ _ _ hcl]
  · intro relPath app ci pj hci hcl h0 hL hres hkp
    unfold copy_from_previous_frame_v1
    rw [hci]
    simp only [if_neg h0, hL]
    rw [if_neg (by decide : ¬(true = false)), hres]
    dsimp only
    rw [if_neg hkp]
    dsimp only
    rw [getD_set_self _ _ _ _ hcl]

/-- C5 witness: the amended theorem's v2 success case at the concrete
state c5App, and the v1 verbatim-copy case at the same state. -/
theorem C5_copy_validation_amended_witness :
    ((copy_from_previous_frame_v2 (some "f0.jpg") (some "f0.jpg") c5App).1.annots.getD
        0 emptyRecord).keypoints
      = ((c5App.annots.getD 1 emptyRecord).keypoints).map
          (clean_entry c5App.formatMode c5App.defaultVisibility) ∧
    ((copy_from_previous_frame_v1 (some "f0.jpg") c5App).1.annots.getD 0
        emptyRecord).keypoints = (c5App.annots.getD 1 emptyRecord).keypoints :=
  ⟨C5_copy_validation_amended.2.2.2.2.2.1 (some "f0.jpg") (some "f0.jpg") c5App 0 1
      rfl (by decide) (by decide) rfl (by decide) (by decide),
    C5_copy_validation_amended.2.2.2.2.2.2 (some "f0.jpg") c5App 0 1
      rfl (by decide) (by decide) rfl (by decide) (by decide)⟩

/-! ### batch_copy_keypoints

Source: keypoint_labeler.py lines 1668-1759 (the copy_batch closure at
lines 1699-1752) and the identical keypoint_labelerv2.py lines 2239-2330.
The values of get_relative_path and get_annotation_match_path for each
image of the list are supplied by the excluded os.path layer and are
passed in as the functions relPathOf / ampPathOf on the image-list path;
curW/curH are the dimensions of the loaded current image (the code's
self.current_image.width/height with the 1280/720 fallback already
applied), and curKps is the captured current_keypoints list. -/

/-- Embeds one iteration of the copy_batch loop body: locate or create the
destination record for image-list index idx, then overwrite its keypoint
list with a deep copy of the captured current keypoints. -/
def copy_batch_one (relPathOf ampPathOf : String → Option String)
    (curW curH : ℚ) (curKps : List KEntry) (idx : Nat) (app : App) : App :=
  let imgPath := app.imageList.getD idx ""
  let rel := relPathOf imgPath
  let amp := ampPathOf imgPath
  let found :=
    match (truthyStr amp).bind fun p => dictLookup app.annDict p with
    | some j => (app, j)
    | none =>
        match (truthyStr rel).bind fun p => dictLookup app.annDict p with
        | some j => (app, j)
        | none =>
            let newIdx := app.annots.length
            let newRec : Record :=
              { image := (truthyStr amp).getD ((truthyStr rel).getD ""),
                width := curW, height := curH, keypoints := [] }
            let d1 :=
              match truthyStr amp with
              | some p => dictInsert app.annDict p newIdx
              | none => app.annDict
            let d2 :=
              match truthyStr rel with
              | some p => dictInsert d1 p newIdx
              | none => d1
            ({ app with annots := app.annots ++ [newRec], annDict := d2 }, newIdx)
  let app1 := found.1
  let newRec := { app1.annots.getD found.2 emptyRecord with keypoints := curKps }
  { app1 with annots := app1.annots.set found.2 newRec }

/-- Embeds the for-loop of copy_batch: k remaining iterations, i the
Python loop variable, with the break when current_image_index + i runs off
the image list. -/
def copy_batch_loop (relPathOf ampPathOf : String → Option String)
    (curW curH : ℚ) (curKps : List KEntry) :
    Nat → Nat → App → Nat → App × Nat
  | 0, _, app, copied => (app, copied)
  | k + 1, i, app, copied =>
      if app.imageList.length ≤ app.currentImageIndex + i then (app, copied)
      else
        copy_batch_loop relPathOf ampPathOf curW curH curKps k (i + 1)
          (copy_batch_one relPathOf ampPathOf curW curH curKps
            (app.currentImageIndex + i) app)
          (copied + 1)

/-- Embeds copy_batch: reject n ≤ 0 with an error (none) and change
nothing; otherwise clamp n to the number of remaining images and run the
loop, reporting the copied count. -/
def batch_copy_keypoints (relPathOf ampPathOf : String → Option String)
    (curW curH : ℚ) (curKps : List KEntry) (n : Int) (app : App) :
    App × Option Nat :=
  let maxFrames : Int :=
    (app.imageList.length : Int) - (app.currentImageIndex : Int) - 1
  if n ≤ 0 then (app, none)
  else
    let n2 : Int := if maxFrames < n then maxFrames else n
    let r := copy_batch_loop relPathOf ampPathOf curW curH curKps
      n2.toNat 1 app 0
    (r.1, some r.2)

lemma copy_batch_one_preserves (relPathOf ampPathOf : String → Option String)
    (curW curH : ℚ) (curKps : List KEntry) (idx : Nat) (app : App) :
    (copy_batch_one relPathOf ampPathOf curW curH curKps idx app).imageList
        = app.imageList ∧
    (copy_batch_one relPathOf ampPathOf curW curH curKps idx app).currentImageIndex
        = app.currentImageIndex := by
  unfold copy_batch_one
  dsimp only
  cases (truthyStr (ampPathOf (app.imageList.getD idx ""))).bind
      (fun p => dictLookup app.annDict p) with
  | some j => exact ⟨rfl, rfl⟩
  | none =>
      dsimp only
      cases (truthyStr (relPathOf (app.imageList.getD idx ""))).bind
          (fun p => dictLookup app.annDict p) with
      | some j => exact ⟨rfl, rfl⟩
      | none => exact ⟨rfl, rfl⟩

lemma copy_batch_loop_count (relPathOf ampPathOf : String → Option String)
    (curW curH : ℚ) (curKps : List KEntry) :
    ∀ (k i : Nat) (app : App) (copied : Nat),
    (∀ j, j < k → app.currentImageIndex + i + j < app.imageList.length) →
    (copy_batch_loop relPathOf ampPathOf curW curH curKps k i app copied).2
      = copied + k := by
  intro k
  induction k with
  | zero => intro i app copied _; rfl
  | succ k ih =>
      intro i app copied hj
      have hlt : app.currentImageIndex + i < app.imageList.length := by
        have := hj 0 (by omega)
        omega
      unfold copy_batch_loop
      rw [if_neg (by omega)]
      have hpres := copy_batch_one_preserves relPathOf ampPathOf curW curH
        curKps (app.currentImageIndex + i) app
      have := ih (i + 1)
        (copy_batch_one relPathOf ampPathOf curW curH curKps
          (app.currentImageIndex + i) app) (copied + 1)
        (by
          intro j hjk
          rw [hpres.1, hpres.2]
          have := hj (j + 1) (by omega)
          omega)
      rw [this]
      omega

/-- Concrete 5-image application state for scenario D: the current image
is index 2 and owns one keypoint; images 3 and 4 have no records yet. -/
def c8App : App :=
  { annots := [⟨"f2.jpg", 100, 100, [some [1, 2]]⟩],
    annDict := [("f2.jpg", 0)],
    curAnn := some 0,
    currentImageIndex := 2,
    imageList := ["f0.jpg", "f1.jpg", "f2.jpg", "f3.jpg", "f4.jpg"],
    undoStack := [],
    redoStack := [],
    annotationsLoaded := true,
    formatMode := .standard,
    defaultVisibility := 2 }

/-- C8: batch_copy rejects n ≤ 0 with an error and changes nothing; for
n > 0 (with a valid current index) it reports a copied count of exactly
min(n, number of images after the current index); and in the concrete
scenario D (5 images, current index 2, n = 100) it copies the current
keypoints to images 3 and 4 only, creating their records, and reports 2. -/
theorem C8_batch_copy_clamps_and_counts :
    (∀ (relPathOf ampPathOf : String → Option String) (curW curH : ℚ)
      (curKps : List KEntry) (n : Int) (app : App), n ≤ 0 →
      batch_copy_keypoints relPathOf ampPathOf curW curH curKps n app
        = (app, none)) ∧
    (∀ (relPathOf ampPathOf : String → Option String) (curW curH : ℚ)
      (curKps : List KEntry) (n : Int) (app : App), 0 < n →
      app.currentImageIndex < app.imageList.length →
      (batch_copy_keypoints relPathOf ampPathOf curW curH curKps n app).2
        = some (min n ((app.imageList.length : Int)
            - (app.currentImageIndex : Int) - 1)).toNat) ∧
    batch_copy_keypoints some some 100 100 [some [1, 2]] 100 c8App
      = ({ c8App with
            annots := [⟨"f2.jpg", 100, 100, [some [1, 2]]⟩,
              ⟨"f3.jpg", 100, 100, [some [1, 2]]⟩,
              ⟨"f4.jpg", 100, 100, [some [1, 2]]⟩],
            annDict := [("f2.jpg", 0), ("f3.jpg", 1), ("f4.jpg", 2)] },
         some 2) := by
  refine ⟨?_, ?_, ?_⟩
  · intro relPathOf ampPathOf curW curH curKps n app hn
    unfold batch_copy_keypoints
    rw [if_pos hn]
  · intro relPathOf ampPathOf curW curH curKps n app hn hidx
    unfold batch_copy_keypoints
    rw [if_neg (by omega)]
    dsimp only
    rw [copy_batch_loop_count]
    · congr 1
      split <;> omega
    · intro j hj
      split at hj <;> omega
  · decide

/-- C8 witness: the rejection branch at n = -3 and the count branch at
n = 100 on the concrete 5-image state. -/
theorem C8_batch_copy_clamps_and_counts_witness :
    batch_copy_keypoints some some 100 100 [some [1, 2]] (-3) c8App
      = (c8App, none) ∧
    (batch_copy_keypoints some some 100 100 [some [1, 2]] 100 c8App).2
      = some (min 100 ((c8App.imageList.length : Int)
          - (c8App.currentImageIndex : Int) - 1)).toNat :=
  ⟨C8_batch_copy_clamps_and_counts.1 some some 100 100 [some [1, 2]] (-3) c8App
      (by decide),
    C8_batch_copy_clamps_and_counts.2.1 some some 100 100 [some [1, 2]] 100 c8App
      (by decide) (by decide)⟩

/-! ### COCO export

Source: export_to_coco, identical in keypoint_labeler.py lines 1780-1883
and keypoint_labelerv2.py lines 2351-2454.  The flattening loop and both
bounding-box comprehensions evaluate len(kp) on every entry with no None
guard, so a None entry raises TypeError, which the function-level
try/except catches: the whole export aborts and no file is written. -/

/-- Embeds the keypoint-flattening loop of export_to_coco: for kp in
keypoints: if len(kp) >= 2: extend [float(kp[0]), float(kp[1]),
int(kp[2]) if len(kp) >= 3 else 2]. -/
def cocoKeypointsFlatten : List KEntry → Except PyErr (List ℚ)
  | [] => .ok []
  | none :: _ => .error .typeError
  | some l :: rest => do
      let r ← cocoKeypointsFlatten rest
      if 2 ≤ l.length then
        return [l.getD 0 0, l.getD 1 0,
          if 3 ≤ l.length then ((pyInt (l.getD 2 0) : ℤ) : ℚ) else 2] ++ r
      else
        return r

/-- Embeds the bbox comprehensions [kp[proj] for kp in keypoints if
len(kp) >= 2] (which also evaluate len on None entries). -/
def presentCoords (proj : Nat) : List KEntry → Except PyErr (List ℚ)
  | [] => .ok []
  | none :: _ => .error .typeError
  | some l :: rest => do
      let r ← presentCoords proj rest
      if 2 ≤ l.length then return l.getD proj 0 :: r else return r

/-- Python min of a list (applied only to non-empty lists in the source). -/
def pyMin : List ℚ → ℚ
  | [] => 0
  | x :: xs => xs.foldl min x

/-- Python max of a list (applied only to non-empty lists in the source). -/
def pyMax : List ℚ → ℚ
  | [] => 0
  | x :: xs => xs.foldl max x

/-- One emitted COCO images[] entry. -/
structure CocoImage where
  id : Nat
  file_name : String
  width : ℚ
  height : ℚ
  deriving DecidableEq, Repr

/-- One emitted COCO annotations[] entry (category_id and iscrowd are the
constants 1 and 0 in the source and are omitted). -/
structure CocoAnnOut where
  id : Nat
  image_id : Nat
  keypoints : List ℚ
  num_keypoints : Nat
  bbox : List ℚ
  area : ℚ
  deriving DecidableEq, Repr

/-- The emitted images[] and annotations[] arrays. -/
structure CocoOut where
  images : List CocoImage
  anns : List CocoAnnOut
  deriving DecidableEq, Repr

/-- Embeds the record loop of export_to_coco: sequential image ids in
first-seen order, skip records with a falsy image path, flatten the
keypoints, and emit an annotation with bbox padding 10 and num_keypoints
set to the raw keypoint-list length. -/
def cocoGo : List Record → List (String × Nat) → Nat → Nat → CocoOut →
    Except PyErr CocoOut
  | [], _, _, _, out => .ok out
  | ann :: rest, idMap, nextImg, nextAnn, out =>
      if ann.image = "" then cocoGo rest idMap nextImg nextAnn out
      else
        let step : List (String × Nat) × Nat × CocoOut :=
          match dictLookup idMap ann.image with
          | some _ => (idMap, nextImg, out)
          | none =>
              (dictInsert idMap ann.image nextImg, nextImg + 1,
               { out with images := out.images ++
                  [⟨nextImg, ann.image, ann.width, ann.height⟩] })
        let idMap1 := step.1
        let nextImg1 := step.2.1
        let out1 := step.2.2
        let imgId := (dictLookup idMap1 ann.image).getD 0
        do
          let ck ← cocoKeypointsFlatten ann.keypoints
          if ck = [] then cocoGo rest idMap1 nextImg1 nextAnn out1
          else do
            let xs ← presentCoords 0 ann.keypoints
            let ys ← presentCoords 1 ann.keypoints
            if xs = [] ∨ ys = [] then cocoGo rest idMap1 nextImg1 nextAnn out1
            else
              let xMin := max 0 (pyMin xs - 10)
              let yMin := max 0 (pyMin ys - 10)
              let bw := min (ann.width - xMin) (pyMax xs - pyMin xs + 2 * 10)
              let bh := min (ann.height - yMin) (pyMax ys - pyMin ys + 2 * 10)
              cocoGo rest idMap1 nextImg1 (nextAnn + 1)
                { out1 with anns := out1.anns ++
                    [⟨nextAnn, imgId, ck, ann.keypoints.length,
                      [xMin, yMin, bw, bh], bw * bh⟩] }

/-- Embeds export_to_coco on a loaded document's annotations list (ids
start at 1, as in the source). -/
def export_to_coco (recs : List Record) : Except PyErr CocoOut :=
  cocoGo recs [] 1 1 ⟨[], []⟩

/-- C1 counterexample: COCO export of the record with keypoints
[[1,1,2], null, [3,3,0]] raises TypeError at len(null) — the whole export
aborts with an error, and no flattened array [1,1,2,3,3,0] with
num_keypoints 2 is emitted. -/
theorem C1_counterexample_coco_export_crashes_on_null :
    export_to_coco [⟨"img1.jpg", 100, 100, [some [1, 1, 2], none, some [3, 3, 0]]⟩]
      = .error .typeError := by
  rfl

lemma cocoKeypointsFlatten_error_of_mem :
    ∀ ks : List KEntry, none ∈ ks →
    cocoKeypointsFlatten ks = .error .typeError := by
  intro ks
  induction ks with
  | nil => intro h; simp at h
  | cons k rest ih =>
      intro h
      cases k with
      | none => rfl
      | some l =>
          have hrest : none ∈ rest := by
            rcases List.mem_cons.mp h with h | h
            · exact absurd h (by simp)
            · exact h
          unfold cocoKeypointsFlatten
          rw [ih hrest]
          rfl

/-- C1 (amended): a keypoint list containing null makes the flattening
loop raise TypeError, aborting the whole COCO export; for null-free lists
the claimed flattening does hold — the same record without the null
exports keypoints [1,1,2,3,3,0] with num_keypoints 2 — but num_keypoints
is the raw list length, not the present count: adding a too-short entry
[7] keeps the flattened array and raises num_keypoints to 3. -/
theorem C1_coco_export_amended :
    (∀ ks : List KEntry, none ∈ ks →
      cocoKeypointsFlatten ks = .error .typeError) ∧
    (export_to_coco [⟨"img1.jpg", 100, 100, [some [1, 1, 2], some [3, 3, 0]]⟩]).toOption.map
        (fun o => o.anns.map fun a => (a.keypoints, a.num_keypoints))
      = some [([1, 1, 2, 3, 3, 0], 2)] ∧
    (export_to_coco [⟨"img1.jpg", 100, 100,
        [some [1, 1, 2], some [3, 3, 0], some [7]]⟩]).toOption.map
        (fun o => o.anns.map fun a => (a.keypoints, a.num_keypoints))
      = some [([1, 1, 2, 3, 3, 0], 3)] := by
  refine ⟨cocoKeypointsFlatten_error_of_mem, ?_, ?_⟩ <;> decide

/-- C1 witness: the amended theorem's first conjunct at the concrete
scenario-E keypoint list. -/
theorem C1_coco_export_amended_witness :
    cocoKeypointsFlatten [some [1, 1, 2], none, some [3, 3, 0]]
      = .error .typeError :=
  C1_coco_export_amended.1 [some [1, 1, 2], none, some [3, 3, 0]] (by simp)

/-! ### YOLO export

Source: export_to_yolo, identical in keypoint_labeler.py lines 1885-1933
and keypoint_labelerv2.py lines 2456-2504.  Coordinates are divided by the
record's stored width/height with no zero guard; the function-level
try/except catches any exception, aborting the export, so no record after
the failing one is written.  Output is modelled as the list of completed
(label-file stem, normalized-pair list) writes; the float formatting
"%.6f" of the line text is not modelled.  (The failing record's file is
itself created empty by open('w') before the exception — only completed
writes appear in the model.) -/

/-- Embeds os.path.splitext(...)[0]: strip the extension after the last
dot, unless every character before that dot is itself a dot. -/
def pyStem (b : String) : String :=
  let cs := b.data
  let dotIdxs := (List.range cs.length).filter fun i => cs.getD i ' ' = '.'
  match dotIdxs.getLast? with
  | none => b
  | some p =>
      if (cs.take p).any (fun c => c ≠ '.') then String.mk (cs.take p) else b

/-- Embeds os.path.splitext(os.path.basename(img_path))[0]. -/
def yoloFilename (imgPath : String) : String := pyStem (basename imgPath)

/-- Embeds the per-record line loop of export_to_yolo: for kp in
keypoints: if len(kp) >= 2: append kp[0]/width, kp[1]/height. -/
def yoloLine (w h : ℚ) : List KEntry → Except PyErr (List (ℚ × ℚ))
  | [] => .ok []
  | none :: _ => .error .typeError
  | some l :: rest =>
      if 2 ≤ l.length then do
        let xn ← pyDiv (l.getD 0 0) w
        let yn ← pyDiv (l.getD 1 0) h
        let r ← yoloLine w h rest
        return (xn, yn) :: r
      else yoloLine w h rest

/-- Embeds export_to_yolo on a document's annotations list: records with
a falsy image path or an empty keypoint list are skipped; the first raised
exception aborts the whole loop (second component some e), leaving only
the files completed before it. -/
def export_to_yolo : List Record → List (String × List (ℚ × ℚ)) × Option PyErr
  | [] => ([], none)
  | ann :: rest =>
      if ann.image = "" then export_to_yolo rest
      else if ann.keypoints = [] then export_to_yolo rest
      else
        match yoloLine ann.width ann.height ann.keypoints with
        | .error e => ([], some e)
        | .ok pairs =>
            let r := export_to_yolo rest
            ((yoloFilename ann.image, pairs) :: r.1, r.2)

/-- C10 counterexample: a zero-width record whose keypoint list has a None
entry before its present keypoint makes the export raise TypeError at
len(None), not ZeroDivisionError, so the claim's universally quantified
exception type is wrong (the export still aborts). -/
theorem C10_counterexample_typeerror_preempts :
    export_to_yolo [⟨"a.jpg", 0, 100, [none, some [1, 1]]⟩]
      = ([], some .typeError) ∧
    PyErr.typeError ≠ PyErr.zeroDivisionError := by
  refine ⟨?_, by decide⟩
  decide

lemma except_bind_error {α β : Type} (e : PyErr) (f : α → Except PyErr β) :
    (Except.error e >>= f) = Except.error e := rfl

lemma except_bind_ok {α β : Type} (a : α) (f : α → Except PyErr β) :
    (Except.ok a >>= f) = f a := rfl

lemma except_map_error {α β : Type} (e : PyErr) (f : α → β) :
    (f <$> (Except.error e : Except PyErr α)) = Except.error e := rfl

lemma yoloLine_zero (w h : ℚ) (hwh : w = 0 ∨ h = 0) :
    ∀ ks : List KEntry, (∀ e ∈ ks, e ≠ none) →
    (∃ l, some l ∈ ks ∧ 2 ≤ l.length) →
    yoloLine w h ks = .error .zeroDivisionError := by
  intro ks
  induction ks with
  | nil =>
      intro _ hex
      obtain ⟨l, hmem, _⟩ := hex
      simp at hmem
  | cons k rest ih =>
      intro hne hex
      cases k with
      | none => exact absurd rfl (hne none (by simp))
      | some l =>
          by_cases hl : 2 ≤ l.length
          · unfold yoloLine
            rw [if_pos hl]
            rcases hwh with hw | hh
            · subst hw
              simp [pyDiv, except_bind_error, except_bind_ok, except_map_error]
            · by_cases hwz : w = 0
              · subst hwz
                simp [pyDiv, except_bind_error, except_bind_ok, except_map_error]
              · subst hh
                simp [pyDiv, hwz, except_bind_error, except_bind_ok,
                  except_map_error]
          · have hex' : ∃ l', some l' ∈ rest ∧ 2 ≤ l'.length := by
              obtain ⟨l', hmem, hlen⟩ := hex
              rcases List.mem_cons.mp hmem with h | h
              · exact absurd hlen (by
                  have : l' = l := by injection h
                  rw [this]
                  exact hl)
              · exact ⟨l', h, hlen⟩
            unfold yoloLine
            rw [if_neg hl]
            exact ih (fun e he => hne e (List.mem_cons_of_mem _ he)) hex'

/-- C10 (amended): for a record with a non-empty image path, all-non-null
keypoint entries, at least one present keypoint, and stored width or
height equal to 0, the YOLO export raises ZeroDivisionError, caught only
at the operation boundary: the whole export aborts and no record (of this
or any later position) is written.  (If a None entry precedes the
division, TypeError is raised instead — see the counterexample — with the
same abort.) -/
theorem C10_yolo_zero_division_amended (r : Record) (post : List Record)
    (hpath : r.image ≠ "")
    (hnn : ∀ e ∈ r.keypoints, e ≠ none)
    (hpresent : ∃ l, some l ∈ r.keypoints ∧ 2 ≤ l.length)
    (hzero : r.width = 0 ∨ r.height = 0) :
    export_to_yolo (r :: post) = ([], some .zeroDivisionError) := by
  have hkne : r.keypoints ≠ [] := by
    obtain ⟨l, hmem, _⟩ := hpresent
    intro hk
    rw [hk] at hmem
    simp at hmem
  unfold export_to_yolo
  rw [if_neg hpath, if_neg hkne, yoloLine_zero r.width r.height hzero
    r.keypoints hnn hpresent]

/-- C10 witness: the amended theorem at a concrete zero-width record
(whose first entry is a too-short list, exercising the skip) followed by a
well-formed record that is consequently never written. -/
theorem C10_yolo_zero_division_amended_witness :
    export_to_yolo [⟨"a.jpg", 0, 100, [some [7], some [1, 1]]⟩,
        ⟨"b.jpg", 100, 100, [some [1, 1]]⟩]
      = ([], some .zeroDivisionError) :=
  C10_yolo_zero_division_amended ⟨"a.jpg", 0, 100, [some [7], some [1, 1]]⟩
    [⟨"b.jpg", 100, 100, [some [1, 1]]⟩] (by decide) (by decide)
    ⟨[1, 1], by decide, by decide⟩ (Or.inl rfl)

/-! ### Native save and its round-trip

Source: save_annotations, keypoint_labeler.py lines 1200-1239 (identical
logic in the other variants).  Before writing, num_images is set to the
record count, and num_keypoints to the maximum keypoint-list length — the
latter only when the annotations list is non-empty.  Python's json module
round-trips the dict/list/number/null structure losslessly, so loading the
written file is modelled as the identity on the structural document: the
composition load ∘ save is the info-recompute transformation.  The info
object is free-form; the model keeps its two maintained counters
(absent key = none). -/

/-- The maintained counters of the info object. -/
structure DocInfo where
  num_images : Option Int
  num_keypoints : Option Int
  deriving DecidableEq, Repr

/-- A native annotation document. -/
structure AnnDoc where
  info : Option DocInfo
  annots : List Record
  deriving DecidableEq, Repr

/-- Embeds max(len(ann.get('keypoints', [])) for ann in annotations),
evaluated only on non-empty lists in the source. -/
def maxKpLen : List Record → Nat
  | [] => 0
  | r :: rest => rest.foldl (fun m a => max m a.keypoints.length)
      r.keypoints.length

/-- Embeds the info-recompute of save_annotations: num_images := record
count; num_keypoints := maximum list length, but only when the annotations
list is non-empty; documents without an info object are written as-is. -/
def save_annotations (d : AnnDoc) : AnnDoc :=
  match d.info with
  | none => d
  | some i =>
      let i1 := { i with num_images := some (d.annots.length : Int) }
      let i2 := if d.annots.isEmpty then i1
        else { i1 with num_keypoints := some (maxKpLen d.annots : Int) }
      { d with info := some i2 }

/-- Models json.load applied to the file json.dump just wrote: the
serialization round-trip is lossless on the structural document, so
loading the saved file yields the document as it stood after the
info-recompute. -/
def load_after_save (d : AnnDoc) : AnnDoc := save_annotations d

/-- C7 counterexample: a document whose stored info.num_images (999) does
not match its record count (1) does not round-trip: the saved file carries
the recomputed counters, so load(save(document)) differs from the
original. -/
theorem C7_counterexample_stale_info_not_roundtripped :
    load_after_save ⟨some ⟨some 999, some 0⟩,
        [⟨"a.jpg", 100, 100, [some [1, 2, 2], none, some [3, 4]]⟩]⟩
      ≠ ⟨some ⟨some 999, some 0⟩,
        [⟨"a.jpg", 100, 100, [some [1, 2, 2], none, some [3, 4]]⟩]⟩ := by
  decide

/-- C7 (amended): load(save(d)) preserves the annotations array exactly —
present, absent (null) and visibility-tagged keypoints round-trip
losslessly — and equals d itself precisely when d has no info object, or
its info counters already hold the recomputed values (num_keypoints only
being recomputed when the annotations list is non-empty). -/
theorem C7_save_roundtrip_amended :
    (∀ d : AnnDoc, (load_after_save d).annots = d.annots) ∧
    (∀ d : AnnDoc, d.info = none → load_after_save d = d) ∧
    (∀ (d : AnnDoc) (i : DocInfo), d.info = some i →
      i.num_images = some (d.annots.length : Int) →
      (d.annots = [] ∨ i.num_keypoints = some (maxKpLen d.annots : Int)) →
      load_after_save d = d) := by
  refine ⟨?_, ?_, ?_⟩
  · intro d
    unfold load_after_save save_annotations
    cases d.info with
    | none => rfl
    | some i => rfl
  · intro d hinfo
    unfold load_after_save save_annotations
    rw [hinfo]
  · intro d i hinfo hni hnk
    obtain ⟨dinfo, dannots⟩ := d
    obtain ⟨ni, nk⟩ := i
    simp only at hinfo hni hnk
    subst hinfo
    unfold load_after_save save_annotations
    simp only [AnnDoc.mk.injEq, Option.some.injEq, and_true]
    rcases hnk with hnk | hnk
    · subst hnk
      simp only [List.isEmpty_nil, if_true]
      rw [hni]
    · have hne : dannots.isEmpty = false ∨ dannots.isEmpty = true := by
        cases dannots.isEmpty <;> simp
      rcases hne with hne | hne
      · rw [hne]
        simp only [Bool.false_eq_true, if_false]
        rw [hni, hnk]
      · rw [hne]
        simp only [if_true]
        rw [hni]

/-- C7 witness: the amended theorem's equality case at a concrete document
with correct counters (one record, one keypoint plus a null entry). -/
theorem C7_save_roundtrip_amended_witness :
    load_after_save ⟨some ⟨some 1, some 2⟩, [⟨"a.jpg", 100, 100, [some [1, 2], none]⟩]⟩
      = ⟨some ⟨some 1, some 2⟩, [⟨"a.jpg", 100, 100, [some [1, 2], none]⟩]⟩ :=
  C7_save_roundtrip_amended.2.2
    ⟨some ⟨some 1, some 2⟩, [⟨"a.jpg", 100, 100, [some [1, 2], none]⟩]⟩
    ⟨some 1, some 2⟩ rfl (by decide) (Or.inr (by decide))

end KeypointTools
